import Mathlib

/-!
Verification of the asterisk-api voice-call mediation service.

Shallow embedding of the WAV/PCM utilities (`src/wav-utils.ts`), the
call/capture/ASR state kept by `CallManager`, `AudioCaptureManager` and
`AsrManager`, the `AriConnection` operations (`hangup`, `speak`, the
`StasisStart`/`StasisEnd` handlers), the ASR client close sequence
(`AsrClient.close`/`flushAndWait`) and the real-time playback scheduler
(`AudioPlayback.streamAudio`).
-/

namespace AsteriskApi

/-! ## WAV / PCM codec utilities (`src/wav-utils.ts`) -/

/-- Standard Asterisk slin sample rates (`SLIN_RATES` in `wav-utils.ts`). -/
def SLIN_RATES : List Nat :=
  [8000, 12000, 16000, 24000, 32000, 44100, 48000, 96000, 192000]

/-- The string JavaScript produces for `best / 1000` when `best` is one of the
standard rates: an integer when `best` divides evenly, otherwise the quotient
followed by the non-zero fractional decimals (`44100 / 1000` prints `44.1`). -/
def jsDivBy1000Str (n : Nat) : String :=
  if n % 1000 = 0 then toString (n / 1000)
  else if n % 100 = 0 then toString (n / 1000) ++ "." ++ toString (n % 1000 / 100)
  else if n % 10 = 0 then toString (n / 1000) ++ "." ++ toString (n % 1000 / 10)
  else toString (n / 1000) ++ "." ++ toString (n % 1000)

/-- Function `slinFormatName` from `wav-utils.ts`: scan `SLIN_RATES` keeping the last
rate `≤ sampleRate` (starting from `best = 8000`), return `"slin"` for 8000 and
`"slin" + best / 1000` otherwise (JavaScript number-to-string for the division). -/
def slinFormatName (sampleRate : Nat) : String :=
  let best := SLIN_RATES.foldl (fun best rate => if rate ≤ sampleRate then rate else best) 8000
  if best = 8000 then "slin" else "slin" ++ jsDivBy1000Str best

/-- Function `hasExactSlinRate` from `wav-utils.ts`. -/
def hasExactSlinRate (sampleRate : Nat) : Bool :=
  SLIN_RATES.contains sampleRate

/-- The sample-rate-to-codec-name mapping as the spec words it (§6
"Linear-PCM codec naming"): the eight exact entries, and other rates mapped to
the nearest lower rate of that eight-element list. -/
def specSlinNameClaim (sampleRate : Nat) : String :=
  if 192000 ≤ sampleRate then "slin192"
  else if 96000 ≤ sampleRate then "slin96"
  else if 48000 ≤ sampleRate then "slin48"
  else if 44100 ≤ sampleRate then "slin44"
  else if 32000 ≤ sampleRate then "slin32"
  else if 24000 ≤ sampleRate then "slin24"
  else if 16000 ≤ sampleRate then "slin16"
  else "slin"

/-- The mapping the code actually implements, stated spec-style: nearest lower
rate in the nine-element list (8000 for anything below), name `"slin"` for 8000
and `"slin" + rate/1000` otherwise, with the JavaScript division printing
`44100 / 1000` as `44.1`. -/
def amendedSlinName (sampleRate : Nat) : String :=
  if 192000 ≤ sampleRate then "slin192"
  else if 96000 ≤ sampleRate then "slin96"
  else if 48000 ≤ sampleRate then "slin48"
  else if 44100 ≤ sampleRate then "slin44.1"
  else if 32000 ≤ sampleRate then "slin32"
  else if 24000 ≤ sampleRate then "slin24"
  else if 16000 ≤ sampleRate then "slin16"
  else if 12000 ≤ sampleRate then "slin12"
  else "slin"

/-- C4 counterexample: the mapping of `slinFormatName` differs from the one the
claim states at the concrete rates 12000 (the code's `SLIN_RATES` also contains
12000, mapped to `"slin12"`, where the claim's eight-rate list would map it down
to `"slin"`) and 44100 (the code computes `"slin" + 44100 / 1000 = "slin44.1"`,
not `"slin44"`). -/
theorem slinFormatName_differs_from_claim :
    slinFormatName 12000 ≠ specSlinNameClaim 12000 ∧
    slinFormatName 44100 ≠ specSlinNameClaim 44100 := by
  constructor <;> decide

set_option maxHeartbeats 1600000 in
/-- C4 (amended): `slinFormatName` maps every sample rate to the nearest lower
rate of the nine-element list [8000, 12000, 16000, 24000, 32000, 44100, 48000,
96000, 192000] (8000 for rates below 8000), naming 8000 `"slin"`, 44100
`"slin44.1"` (the JavaScript string of `44100 / 1000`), and every other rate
`"slin" + rate / 1000`. -/
theorem slinFormatName_nearest_lower (sampleRate : Nat) :
    slinFormatName sampleRate = amendedSlinName sampleRate := by
  unfold slinFormatName amendedSlinName SLIN_RATES
  simp only [List.foldl_cons, List.foldl_nil, ite_self]
  split_ifs <;> first | omega | decide

/-! ## Stereo→mono downmix (`toMono16bit` in `src/wav-utils.ts`) -/

/-- Storing an integer into a JavaScript `Int16Array` applies `ToInt16`:
reduce mod 2^16 into [-32768, 32767]. -/
def toInt16 (v : Int) : Int :=
  if v % 65536 < 32768 then v % 65536 else v % 65536 - 65536

/-- Clamp an integer to the int16 range [-32768, 32767]. -/
def clampInt16 (v : Int) : Int := max (-32768) (min 32767 v)

/-- JavaScript `Math.round(s / 2)` for an integer `s`: `Math.round` rounds
half-integers toward +∞, so the result is `⌊(s + 1) / 2⌋`. -/
def jsRoundHalfSum (s : Int) : Int := (s + 1) / 2

/-- The stereo→mono loop body of `toMono16bit` (`wav-utils.ts`):
`dst[i] = Math.round((src[i * 2] + src[i * 2 + 1]) / 2)` including the
`Int16Array` store conversion. -/
def monoSample (l r : Int) : Int := toInt16 (jsRoundHalfSum (l + r))

/-- The stereo→mono conversion of `toMono16bit` over the list of (left, right)
16-bit sample pairs read from the `Int16Array` view of the input. -/
def toMono16bitStereo (samples : List (Int × Int)) : List Int :=
  samples.map (fun p => monoSample p.1 p.2)

theorem toInt16_eq_self {v : Int} (h1 : -32768 ≤ v) (h2 : v ≤ 32767) :
    toInt16 v = v := by
  unfold toInt16
  split_ifs <;> omega

theorem clampInt16_eq_self {v : Int} (h1 : -32768 ≤ v) (h2 : v ≤ 32767) :
    clampInt16 v = v := by
  unfold clampInt16
  rw [min_eq_right h2, max_eq_right h1]

theorem jsRoundHalfSum_bounds {s : Int} (h1 : -65536 ≤ s) (h2 : s ≤ 65534) :
    -32768 ≤ jsRoundHalfSum s ∧ jsRoundHalfSum s ≤ 32767 := by
  unfold jsRoundHalfSum
  omega

/-- C9: for int16 inputs, every mono sample produced by the stereo→mono
downmix equals `round((L + R) / 2)` clamped to the int16 range. -/
theorem toMono16bit_downmix_linearity (samples : List (Int × Int))
    (h : ∀ p ∈ samples, -32768 ≤ p.1 ∧ p.1 ≤ 32767 ∧ -32768 ≤ p.2 ∧ p.2 ≤ 32767) :
    toMono16bitStereo samples =
      samples.map (fun p => clampInt16 (jsRoundHalfSum (p.1 + p.2))) := by
  unfold toMono16bitStereo
  refine List.map_congr_left (fun p hp => ?_)
  obtain ⟨hl1, hl2, hr1, hr2⟩ := h p hp
  have hb : -32768 ≤ jsRoundHalfSum (p.1 + p.2) ∧ jsRoundHalfSum (p.1 + p.2) ≤ 32767 :=
    jsRoundHalfSum_bounds (by omega) (by omega)
  unfold monoSample
  rw [toInt16_eq_self hb.1 hb.2, clampInt16_eq_self hb.1 hb.2]

/-- C9 witness: the downmix equation evaluated on a concrete stereo buffer
containing an odd-sum pair and the extreme negative samples. -/
theorem toMono16bit_downmix_linearity_witness :
    (∀ p ∈ [((100 : Int), (101 : Int)), (-32768, -32767), (32767, 32767)],
        -32768 ≤ p.1 ∧ p.1 ≤ 32767 ∧ -32768 ≤ p.2 ∧ p.2 ≤ 32767) ∧
    toMono16bitStereo [((100 : Int), (101 : Int)), (-32768, -32767), (32767, 32767)] =
      [((100 : Int), (101 : Int)), (-32768, -32767), (32767, 32767)].map
        (fun p => clampInt16 (jsRoundHalfSum (p.1 + p.2))) :=
  ⟨by decide, toMono16bit_downmix_linearity _ (by decide)⟩

/-! ## WAV parser (`parseWav` in `src/wav-utils.ts`) -/

/-- Model of `Buffer.readUInt16LE`: two bytes, little-endian; `none` when the read is
out of range (Node throws `ERR_OUT_OF_RANGE`, which aborts the parse). -/
def readU16LE (buf : List Nat) (i : Nat) : Option Nat := do
  let b0 ← buf[i]?
  let b1 ← buf[i + 1]?
  pure (b0 + 256 * b1)

/-- Model of `Buffer.readUInt32LE`: four bytes, little-endian; `none` when out of range. -/
def readU32LE (buf : List Nat) (i : Nat) : Option Nat := do
  let b0 ← buf[i]?
  let b1 ← buf[i + 1]?
  let b2 ← buf[i + 2]?
  let b3 ← buf[i + 3]?
  pure (b0 + 256 * b1 + 65536 * b2 + 16777216 * b3)

/-- Model of `buf.toString("ascii", i, i + n)`: each byte masked to 7 bits. -/
def asciiStr (buf : List Nat) (i n : Nat) : String :=
  String.mk (((buf.drop i).take n).map (fun b => Char.ofNat (b % 128)))

/-- The chunk-walk loop of `parseWav` (`wav-utils.ts`): starting at `offset`,
read each chunk header while `offset + 8 ≤ buf.length`; a `"fmt "` chunk sets
the format fields (PCM only), a `"data"` chunk stops the walk recording
`(dataStart, dataSize)`; other chunks are skipped with odd-size padding.
Returns `(sampleRate, bitDepth, channels, dataStart, dataSize)`, the last two
zero when no data chunk was found. `fuel` only bounds the recursion; each
iteration advances `offset` by at least 8, so `fuel = buf.length` (what
`parseWav` passes) can never run out while the loop guard still holds. -/
def walkChunks (buf : List Nat) :
    (fuel offset sampleRate bitDepth channels : Nat) →
    Except String (Nat × Nat × Nat × Nat × Nat)
  | 0, _, sampleRate, bitDepth, channels => .ok (sampleRate, bitDepth, channels, 0, 0)
  | fuel + 1, offset, sampleRate, bitDepth, channels =>
    if offset + 8 ≤ buf.length then
      match readU32LE buf (offset + 4) with
      | none => .error "chunk size read out of range"
      | some chunkSize =>
        if asciiStr buf offset 4 = "fmt " then
          if chunkSize < 16 then .error "fmt chunk too small"
          else
            match readU16LE buf (offset + 8) with
            | none => .error "fmt fields out of range"
            | some audioFormat =>
              if audioFormat ≠ 1 then .error "Unsupported audio format (only PCM/1 supported)"
              else
                match readU16LE buf (offset + 10), readU32LE buf (offset + 12),
                    readU16LE buf (offset + 22) with
                | some ch, some sr, some bd =>
                  walkChunks buf fuel (offset + 8 + chunkSize + chunkSize % 2) sr bd ch
                | _, _, _ => .error "fmt fields out of range"
        else if asciiStr buf offset 4 = "data" then
          .ok (sampleRate, bitDepth, channels, offset + 8, chunkSize)
        else
          walkChunks buf fuel (offset + 8 + chunkSize + chunkSize % 2) sampleRate bitDepth channels
    else
      .ok (sampleRate, bitDepth, channels, 0, 0)

/-- The result of `parseWav`: format fields, the data slice (with its location
`dataStart` and clamped byte count `dataSize`), and the duration computed from
the clamped size. -/
structure WavInfo where
  sampleRate : Nat
  bitDepth : Nat
  channels : Nat
  dataStart : Nat
  dataSize : Nat
  data : List Nat
  durationSeconds : Rat
deriving DecidableEq, Repr

/-- Value of `dataSize` after the clamp in `parseWav`: `available = buf.length − dataStart`,
and `if (dataSize > available) dataSize = available`. -/
def clampedDataSize (bufLen dataStart declaredSize : Nat) : Nat :=
  if declaredSize > bufLen - dataStart then bufLen - dataStart else declaredSize

/-- Function `parseWav` from `wav-utils.ts`: check length and RIFF/WAVE magic, walk the
chunks, validate the fmt fields and the data chunk, clamp `dataSize` to the
bytes actually available after `dataStart`, slice the data and compute the
duration. -/
def parseWav (buf : List Nat) : Except String WavInfo :=
  if buf.length < 44 then .error "Buffer too small to be a valid WAV file"
  else if asciiStr buf 0 4 ≠ "RIFF" then .error "Not a RIFF file"
  else if asciiStr buf 8 4 ≠ "WAVE" then .error "Not a WAVE file"
  else
    match walkChunks buf buf.length 12 0 0 0 with
    | .error e => .error e
    | .ok (sampleRate, bitDepth, channels, dataStart, declaredSize) =>
      if sampleRate = 0 ∨ channels = 0 ∨ bitDepth = 0 then
        .error "WAV file missing fmt chunk or invalid format fields"
      else if dataStart = 0 ∨ declaredSize = 0 then
        .error "WAV file missing data chunk"
      else
        .ok ⟨sampleRate, bitDepth, channels, dataStart,
          clampedDataSize buf.length dataStart declaredSize,
          (buf.drop dataStart).take (clampedDataSize buf.length dataStart declaredSize),
          ((clampedDataSize buf.length dataStart declaredSize : Rat) /
              (((bitDepth : Rat) / 8) * (channels : Rat))) / (sampleRate : Rat)⟩

/-- Any successful chunk walk reports either no data chunk (`dataStart = 0`) or
a `dataStart` lying within the buffer (its 8-byte chunk header included). -/
theorem walkChunks_dataStart_le (buf : List Nat) :
    ∀ fuel offset sr bd ch sr2 bd2 ch2 ds sz,
      walkChunks buf fuel offset sr bd ch = .ok (sr2, bd2, ch2, ds, sz) →
      ds = 0 ∨ (offset + 8 ≤ ds ∧ ds ≤ buf.length) := by
  intro fuel
  induction fuel with
  | zero =>
    intro offset sr bd ch sr2 bd2 ch2 ds sz hok
    simp only [walkChunks, Except.ok.injEq, Prod.mk.injEq] at hok
    omega
  | succ n ih =>
    intro offset sr bd ch sr2 bd2 ch2 ds sz hok
    rw [walkChunks] at hok
    split at hok
    · rename_i hoff
      repeat'
        first
        | split at hok
        | exact Except.noConfusion hok
        | (simp only [Except.ok.injEq, Prod.mk.injEq] at hok; omega)
        | (have hrec := ih _ _ _ _ _ _ _ _ _ hok; omega)
    · simp only [Except.ok.injEq, Prod.mk.injEq] at hok
      omega

/-- C10: every buffer the WAV parser accepts yields a data slice lying wholly
within the input: `dataStart + dataSize ≤ buf.length`, the returned data is
exactly that in-bounds slice (so its length is the clamped `dataSize`, never
the declared chunk size), and the duration is computed from the clamped size. -/
theorem parseWav_data_in_bounds (buf : List Nat) (info : WavInfo)
    (h : parseWav buf = .ok info) :
    info.dataStart + info.dataSize ≤ buf.length ∧
    info.data = (buf.drop info.dataStart).take info.dataSize ∧
    info.data.length = info.dataSize ∧
    info.durationSeconds =
      ((info.dataSize : Rat) / (((info.bitDepth : Rat) / 8) * (info.channels : Rat))) /
        (info.sampleRate : Rat) := by
  unfold parseWav at h
  repeat' split at h
  any_goals exact Except.noConfusion h
  rename_i hlen hriff hwave wout sampleRate bitDepth channels dataStart declaredSize
    hwalk hfmt hdata
  have hds := walkChunks_dataStart_le buf buf.length 12
    0 0 0 sampleRate bitDepth channels dataStart declaredSize hwalk
  have hstart : dataStart ≤ buf.length := by omega
  simp only [Except.ok.injEq] at h
  rw [← h]
  refine ⟨?_, rfl, ?_, rfl⟩
  · simp only [clampedDataSize]
    split <;> omega
  · simp only [clampedDataSize, List.length_take, List.length_drop]
    split <;> omega

/-- A concrete 48-byte WAV buffer: mono 16-bit at 8000 Hz whose data chunk
declares 100 bytes while only 4 bytes follow the chunk header. -/
def wavWitnessBuf : List Nat :=
  [82, 73, 70, 70, 40, 0, 0, 0, 87, 65, 86, 69,
   102, 109, 116, 32, 16, 0, 0, 0, 1, 0, 1, 0, 64, 31, 0, 0, 128, 62, 0, 0, 2, 0, 16, 0,
   100, 97, 116, 97, 100, 0, 0, 0, 10, 20, 30, 40]

/-- C10 witness: the parser accepts `wavWitnessBuf`, clamps the declared size
100 down to the 4 available bytes and stays in bounds. -/
theorem parseWav_data_in_bounds_witness :
    parseWav wavWitnessBuf =
      .ok ⟨8000, 16, 1, 44, 4, [10, 20, 30, 40],
        ((4 : Rat) / (((16 : Rat) / 8) * (1 : Rat))) / (8000 : Rat)⟩ ∧
    (⟨8000, 16, 1, 44, 4, [10, 20, 30, 40],
        ((4 : Rat) / (((16 : Rat) / 8) * (1 : Rat))) / (8000 : Rat)⟩ : WavInfo).dataStart +
      (⟨8000, 16, 1, 44, 4, [10, 20, 30, 40],
        ((4 : Rat) / (((16 : Rat) / 8) * (1 : Rat))) / (8000 : Rat)⟩ : WavInfo).dataSize ≤
      wavWitnessBuf.length := by
  have h : parseWav wavWitnessBuf =
      .ok ⟨8000, 16, 1, 44, 4, [10, 20, 30, 40],
        ((4 : Rat) / (((16 : Rat) / 8) * (1 : Rat))) / (8000 : Rat)⟩ := by rfl
  exact ⟨h, (parseWav_data_in_bounds _ _ h).1⟩

/-! ## Call registry and per-call handle state
(`call-manager.ts`, `audio-capture.ts`, `asr-client.ts`, `ari-connection.ts`) -/

/-- The `CallState` union of `types.ts`, together with the `"ready"` and
`"speaking"` states `ari-connection.ts` assigns. -/
inductive CState
  | initiating
  | ringing
  | answered
  | ready
  | playing
  | speaking
  | recording
  | bridged
  | ended
  | failed
deriving DecidableEq, Repr

/-- Call direction. -/
inductive CDir
  | inbound
  | outbound
deriving DecidableEq, Repr

/-- The fields of a `CallRecord` (`types.ts`) that the verified operations
read or write (timestamps are not modelled). -/
structure CallR where
  channelId : String
  state : CState
  direction : CDir
  callerNumber : String
  calleeNumber : String
  hangupCause : Option String
deriving DecidableEq, Repr

/-- The `CallManager.calls` map, as an association list in insertion order. -/
abbrev CallMap := List (String × CallR)

/-- `CallManager.get`. -/
def lookupCall (calls : CallMap) (callId : String) : Option CallR :=
  (calls.find? (fun e => e.1 = callId)).map (fun e => e.2)

/-- `CallManager.getByChannelId`: the first call whose `channelId` matches. -/
def getByChannelId (calls : CallMap) (channelId : String) : Option (String × CallR) :=
  calls.find? (fun e => e.2.channelId = channelId)

/-- Mutate the record stored under `callId` (no-op when absent), as the
`CallManager` methods do through `this.calls.get`. -/
def setCallState (calls : CallMap) (callId : String) (f : CallR → CallR) : CallMap :=
  calls.map (fun e => if e.1 = callId then (e.1, f e.2) else e)

/-- `CallManager.updateState`. -/
def cmUpdateState (calls : CallMap) (callId : String) (st : CState) : CallMap :=
  setCallState calls callId (fun c => { c with state := st })

/-- `CallManager.end`: mark the record ended with the cause (the 5-minute
delayed deletion timer is not modelled). -/
def cmEnd (calls : CallMap) (callId : String) (cause : String) : CallMap :=
  setCallState calls callId (fun c => { c with state := .ended, hangupCause := some cause })

/-- The mutable state the verified `AriConnection` handlers touch: the call
registry, the keys of `AudioCaptureManager.captures`, the entries of
`AsrManager.clients` with each client's `closed` flag, the keys of the
in-flight TTS requests, and the `connected` flag.  (`AriConnection` in
`src/ari-connection.ts` wires no `AudioPlaybackManager`, so there is no
playback-session map to track.) -/
structure Sys where
  calls : CallMap
  captures : List String
  asrSessions : List (String × Bool)
  ttsInflight : List String
  connected : Bool
deriving DecidableEq, Repr

/-- The `AriError` class of `ari-connection.ts`: message plus HTTP status hint. -/
structure AriErr where
  message : String
  statusCode : Nat
deriving DecidableEq, Repr

/-- Synchronous effect of `AudioCaptureManager.stopCapture(cid)` together with
the listeners it fires: the capture is removed from the manager's map (the
`capture.stopped` listener in `audio-capture.ts`), and the `capture.stopped`
handler in `ari-connection.ts` calls `AsrManager.endSession`, whose
`client.close()` sets the client's `closed` flag before suspending on the
flush wait — the `clients` map entry itself is only deleted after that await
resolves, i.e. after the calling handler has moved on. -/
def stopCaptureSync (s : Sys) (cid : String) : Sys :=
  { s with
    captures := s.captures.filter (fun k => k ≠ cid),
    asrSessions := s.asrSessions.map (fun e => if e.1 = cid then (e.1, true) else e) }

/-- `AriConnection.hangup` (`ari-connection.ts` lines 786–797): 404 when the
call is unknown, 503 when ARI is not connected (`requireConnection`); the ARI
`channels.hangup` call sits in a `try { } catch { }` whose outcome
`switchHangupFails` is swallowed; finally `CallManager.end(callId, reason ||
"normal")`. -/
def hangup (s : Sys) (callId : String) (reason : Option String)
    (switchHangupFails : Bool) : Except AriErr Sys :=
  match lookupCall s.calls callId with
  | none => .error ⟨"Call " ++ callId ++ " not found", 404⟩
  | some _ =>
    if ¬ s.connected then
      .error ⟨"ARI is not connected — Asterisk may be unreachable", 503⟩
    else
      -- `switchHangupFails` is deliberately unused: the catch block is empty
      let _ := switchHangupFails
      .ok { s with calls := cmEnd s.calls callId (reason.getD "normal") }

/-- The `StasisEnd` handler (`ari-connection.ts` lines 317–336): look the call
up by channel id; if it exists and is not already ended, cancel its in-flight
TTS, stop its audio capture when one is registered (which also initiates the
ASR session close), then mark the record ended with cause `"normal"`. -/
def stasisEnd (s : Sys) (channelId : String) : Sys :=
  match getByChannelId s.calls channelId with
  | none => s
  | some (cid, c) =>
    if c.state = .ended then s
    else
      let s1 := { s with ttsInflight := s.ttsInflight.filter (fun k => k ≠ cid) }
      let s2 := if s1.captures.contains cid then stopCaptureSync s1 cid else s1
      { s2 with calls := cmEnd s2.calls cid "normal" }

theorem lookupCall_setCallState (calls : CallMap) (callId : String) (f : CallR → CallR) :
    lookupCall (setCallState calls callId f) callId =
      (lookupCall calls callId).map f := by
  induction calls with
  | nil => rfl
  | cons e rest ih =>
    by_cases h : e.1 = callId
    · simp [lookupCall, setCallState, List.find?, h]
    · simpa [lookupCall, setCallState, List.find?, h] using ih

theorem lookupCall_isSome_of_mem {calls : CallMap} {cid : String} {c : CallR}
    (hmem : (cid, c) ∈ calls) : (lookupCall calls cid).isSome := by
  unfold lookupCall
  have h1 : (calls.find? (fun e => e.1 = cid)).isSome :=
    List.find?_isSome.mpr ⟨(cid, c), hmem, by simp⟩
  rcases Option.isSome_iff_exists.mp h1 with ⟨e, he⟩
  simp [he]

instance {ε α : Type} [DecidableEq ε] [DecidableEq α] : DecidableEq (Except ε α) :=
  fun a b =>
    match a, b with
    | .ok x, .ok y => decidable_of_iff (x = y) (by simp)
    | .error x, .error y => decidable_of_iff (x = y) (by simp)
    | .ok _, .error _ => isFalse (by simp)
    | .error _, .ok _ => isFalse (by simp)

/-- A concrete system state: one live inbound call `c1` in state `ready` with
an active audio capture and an open (not closing) ASR session. -/
def c1Live : Sys :=
  { calls := [("c1", ⟨"ch1", .ready, .inbound, "5551234", "100", none⟩)],
    captures := ["c1"],
    asrSessions := [("c1", false)],
    ttsInflight := [],
    connected := true }

/-- C1 counterexample: hanging up the live call `c1` yields a state whose
record is `ended` while its audio capture is still registered in the capture
manager and its ASR client still present (and not even closing) in the ASR
manager — the claimed invariant fails on the hangup path into `ended`. -/
theorem hangup_ended_with_handles_registered :
    hangup c1Live "c1" none false =
      .ok { calls := [("c1", ⟨"ch1", .ended, .inbound, "5551234", "100", some "normal"⟩)],
            captures := ["c1"],
            asrSessions := [("c1", false)],
            ttsInflight := [],
            connected := true } ∧
    ((hangup c1Live "c1" none false).toOption.map Sys.captures = some ["c1"]) ∧
    ((hangup c1Live "c1" none false).toOption.map Sys.asrSessions = some [("c1", false)]) := by
  refine ⟨by decide, by decide, by decide⟩

/-- C1 (amended): teardown of the per-call handles happens only on the
`StasisEnd` path.  Processing `StasisEnd` for a live call deregisters its
audio capture and initiates its ASR session close before the record is marked
`ended`; the `hangup` operation instead marks the record `ended` while leaving
the capture, ASR and TTS handle maps untouched; and `StasisEnd` performs no
teardown at all when the looked-up call is already `ended` (as it is after a
`hangup`). -/
theorem ended_teardown_only_on_stasisEnd (s : Sys) (chId cid : String) (c : CallR)
    (hid : getByChannelId s.calls chId = some (cid, c))
    (hlive : c.state ≠ .ended) :
    (cid ∉ (stasisEnd s chId).captures ∧
      (lookupCall (stasisEnd s chId).calls cid).map CallR.state =
        (lookupCall s.calls cid).map (fun _ => CState.ended) ∧
      (cid ∈ s.captures →
        ∀ e ∈ (stasisEnd s chId).asrSessions, e.1 = cid → e.2 = true)) ∧
    (∀ reason sw, s.connected = true →
      ∃ s2, hangup s cid reason sw = .ok s2 ∧
        (lookupCall s2.calls cid).map CallR.state =
          (lookupCall s.calls cid).map (fun _ => CState.ended) ∧
        s2.captures = s.captures ∧
        s2.asrSessions = s.asrSessions ∧
        s2.ttsInflight = s.ttsInflight) ∧
    (∀ s' cid' c', getByChannelId s'.calls chId = some (cid', c') →
      c'.state = .ended → stasisEnd s' chId = s') := by
  have hmem : ((cid, c) ∈ s.calls) := by
    have := List.mem_of_find?_eq_some hid
    exact this
  have hsome : (lookupCall s.calls cid).isSome := lookupCall_isSome_of_mem hmem
  refine ⟨?_, ?_, ?_⟩
  · unfold stasisEnd
    rw [hid]
    simp only [if_neg hlive]
    refine ⟨?_, ?_, ?_⟩
    · split <;> simp_all [stopCaptureSync, List.mem_filter]
    · split <;>
        · simp only [stopCaptureSync, cmEnd]
          rw [lookupCall_setCallState]
          cases hl : lookupCall s.calls cid <;> simp_all [Option.map_map]
    · intro hcap e he h1
      rw [if_pos (by simpa using hcap)] at he
      simp only [stopCaptureSync, List.mem_map] at he
      obtain ⟨a, ha, hae⟩ := he
      by_cases hk : a.1 = cid
      · rw [if_pos hk] at hae
        rw [← hae]
      · rw [if_neg hk] at hae
        exact absurd (hae ▸ hk) (by simp [h1])
  · intro reason sw hconn
    refine ⟨{ s with calls := cmEnd s.calls cid (reason.getD "normal") }, ?_, ?_, rfl, rfl, rfl⟩
    · unfold hangup
      cases hl : lookupCall s.calls cid with
      | none => rw [hl] at hsome; exact absurd hsome (by simp)
      | some c0 => simp [hconn]
    · simp only [cmEnd]
      rw [lookupCall_setCallState]
      cases lookupCall s.calls cid <;> rfl
  · intro s' cid' c' hid' hend
    unfold stasisEnd
    rw [hid']
    simp [hend]

/-- C1 amended-claim witness: the three clauses evaluated on the concrete live
state `c1Live` (and, for the third clause, on the state `hangup` produced). -/
theorem ended_teardown_only_on_stasisEnd_witness :
    ("c1" ∉ (stasisEnd c1Live "ch1").captures ∧
      (lookupCall (stasisEnd c1Live "ch1").calls "c1").map CallR.state =
        (lookupCall c1Live.calls "c1").map (fun _ => CState.ended) ∧
      ("c1" ∈ c1Live.captures →
        ∀ e ∈ (stasisEnd c1Live "ch1").asrSessions, e.1 = "c1" → e.2 = true)) ∧
    (∃ s2, hangup c1Live "c1" none false = .ok s2 ∧
      (lookupCall s2.calls "c1").map CallR.state =
        (lookupCall c1Live.calls "c1").map (fun _ => CState.ended) ∧
      s2.captures = c1Live.captures ∧
      s2.asrSessions = c1Live.asrSessions ∧
      s2.ttsInflight = c1Live.ttsInflight) := by
  have h := ended_teardown_only_on_stasisEnd c1Live "ch1" "c1"
    ⟨"ch1", .ready, .inbound, "5551234", "100", none⟩ (by decide) (by decide)
  exact ⟨h.1, h.2.1 none false (by decide)⟩

/-! ## Inbound allowlist gate and the `StasisStart` handler
(`allowlist.ts`, `ari-connection.ts` lines 223–315) -/

/-- Function `normalizeNumber` from `allowlist.ts`:
`input.replace(/\D/g, "")` — keep only the decimal digits. -/
def normalizeNumber (input : String) : String :=
  String.mk (input.toList.filter Char.isDigit)

/-- Function `isInboundAllowed` from `allowlist.ts` (lines 129–148), with the
cached allowlist (whose entries `loadAllowlist` already normalized) passed
explicitly: an empty list allows all; an empty normalized caller id is
blocked; otherwise membership decides. -/
def isInboundAllowed (inbound : List String) (callerId : String) : Bool :=
  if inbound.isEmpty then true
  else
    let number := normalizeNumber callerId
    if number = "" then false
    else inbound.contains number

/-- The fields of the ARI channel object the `StasisStart` handler reads
(`channel.caller?.number || ""` and `channel.dialplan?.exten || ""` already
defaulted to `""`). -/
structure AriChannel where
  id : String
  callerNumber : String
  exten : String
deriving DecidableEq, Repr

/-- Externally visible actions of the `StasisStart` handler. -/
inductive StasisAction
  | hangupChannel (channelId : String)
  | webhook (event : String)
  | armAnswerTimer (delayMs : Nat)
deriving DecidableEq, Repr

/-- The `StasisStart` handler (`ari-connection.ts` lines 223–315): skip dialed
outbound legs, already-tracked channels and internal `snoop-`/`audiocap-`
channels; hang a denied caller up immediately without touching the call
registry; otherwise create the record in state `ringing`, notify the webhook
and arm the ring-delay answer timer. -/
def stasisStart (s : Sys) (inbound : List String) (ringDelayMs : Nat)
    (args : List String) (ch : AriChannel) (newCallId : String) :
    Sys × List StasisAction :=
  if args.contains "dialed" then (s, [])
  else if (getByChannelId s.calls ch.id).isSome then (s, [])
  else if ch.id.startsWith "snoop-" ∨ ch.id.startsWith "audiocap-" then (s, [])
  else if ¬ isInboundAllowed inbound ch.callerNumber then
    (s, [.hangupChannel ch.id])
  else
    ({ s with calls :=
        s.calls ++ [(newCallId, ⟨ch.id, .ringing, .inbound, ch.callerNumber, ch.exten, none⟩)] },
      [.webhook "call.inbound", .armAnswerTimer ringDelayMs])

/-- The empty system state (no calls, no handles, ARI connected). -/
def emptySys : Sys :=
  { calls := [], captures := [], asrSessions := [], ttsInflight := [], connected := true }

/-- C5 counterexample: an inbound `StasisStart` from caller `"999"` against the
allowlist `["5551234"]` is denied; the handler hangs the channel up but leaves
the call registry empty — no call record (in particular none in state
`failed`) is recorded for the call. -/
theorem denied_inbound_records_nothing :
    stasisStart emptySys ["5551234"] 3000 [] ⟨"ch9", "999", "100"⟩ "n1" =
      (emptySys, [.hangupChannel "ch9"]) ∧
    (stasisStart emptySys ["5551234"] 3000 [] ⟨"ch9", "999", "100"⟩ "n1").1.calls = [] := by
  refine ⟨by decide, by decide⟩

/-- C5 (amended): for every inbound new-channel event denied by the inbound
allowlist (and not skipped as a dialed leg, an already-tracked channel or an
internal channel), the handler's only action is to hang the channel up
immediately, and the system state — in particular the call registry — is left
completely unchanged: no call record in any state is created. -/
theorem denied_inbound_releases_and_records_nothing (s : Sys) (inbound : List String)
    (ringDelayMs : Nat) (args : List String) (ch : AriChannel) (newCallId : String)
    (hdialed : ¬ args.contains "dialed")
    (htracked : getByChannelId s.calls ch.id = none)
    (hinternal : ¬ (ch.id.startsWith "snoop-" ∨ ch.id.startsWith "audiocap-"))
    (hdenied : isInboundAllowed inbound ch.callerNumber = false) :
    stasisStart s inbound ringDelayMs args ch newCallId = (s, [.hangupChannel ch.id]) := by
  unfold stasisStart
  rw [if_neg (by simpa using hdialed), if_neg (by simp [htracked]),
    if_neg (by simpa using hinternal), if_pos (by simp [hdenied])]

/-- C5 amended-claim witness: the denied-inbound equation evaluated at the
concrete event of the counterexample. -/
theorem denied_inbound_releases_and_records_nothing_witness :
    stasisStart emptySys ["5551234"] 3000 [] ⟨"ch9", "999", "100"⟩ "n1" =
      (emptySys, [.hangupChannel "ch9"]) :=
  denied_inbound_releases_and_records_nothing emptySys ["5551234"] 3000 []
    ⟨"ch9", "999", "100"⟩ "n1" (by decide) (by decide) (by decide) (by decide)

/-! ## The speak operation (`ari-connection.ts` lines 567–629) and the TTS
client (`tts-client.ts`, `part_008`) -/

/-- An error value thrown by the JavaScript code: either an `AriError` (with
its HTTP status hint) or any other `Error` (only its message matters to
`parseAriError`). -/
inductive JsError
  | ariError (e : AriErr)
  | genericError (message : String)
deriving DecidableEq, Repr

/-- The message of the `TypeError` Node's `fetch` rejects with when
`config.tts.url` is `undefined`: `TtsClient.synthesize` builds the request
URL as `` `${this.config.url}/v1/audio/speech` ``, which with no configured
URL is the unparsable string `undefined/v1/audio/speech`. -/
def ttsNoUrlFetchError : String :=
  "Failed to parse URL from undefined/v1/audio/speech"

/-- Model of `TtsManager.synthesize` → `TtsClient.synthesize`
(`tts-client.ts`, `part_008` lines 109–155 and 170–188): there is no
missing-URL check anywhere — the client always issues the fetch.  With no
configured URL the fetch itself rejects with the URL-parse `TypeError`; with
a URL configured the outcome is whatever the TTS server interaction produced
(success, HTTP-error throw, or abort), passed in as `serverOutcome`.  The
per-call in-flight tracking and cancellation of `TtsManager` do not affect
this result. -/
def ttsSynthesize (ttsUrl : Option String) (serverOutcome : Except JsError Unit) :
    Except JsError Unit :=
  match ttsUrl with
  | none => .error (.genericError ttsNoUrlFetchError)
  | some _ => serverOutcome

/-- The `finally` block of `AriConnection.speak`: if the record is still in
state `speaking`, restore the state held before the operation (`answered` when
that previous state was itself `speaking`). -/
def speakRestore (s : Sys) (callId : String) (previousState : CState) : Sys :=
  match lookupCall s.calls callId with
  | none => s
  | some cur =>
    if cur.state = .speaking then
      let restored := if previousState = .speaking then CState.answered else previousState
      { s with calls := cmUpdateState s.calls callId restored }
    else s

/-- Outcome of `speak`: the state left behind and the error thrown, if any. -/
structure SpeakOutcome where
  state : Sys
  error : Option AriErr
deriving DecidableEq, Repr

/-- Function `AriConnection.speak` (lines 567–629): 404 when the call is
unknown, 503 when ARI is down; otherwise record the previous state,
transition to `speaking`, synthesize, and in every case run the `finally`
restore.  The catch block rethrows an `AriError` as-is and wraps any other
error as `AriError("Speak failed: " + parseAriError(err).message, 502)`;
`parseAriError` of a plain `Error` with no embedded JSON body returns its
message unchanged.  The playback of the synthesized audio and the emitted
events are external effects not reflected in `Sys`. -/
def speak (s : Sys) (ttsUrl : Option String) (serverOutcome : Except JsError Unit)
    (callId : String) : SpeakOutcome :=
  match lookupCall s.calls callId with
  | none => ⟨s, some ⟨"Call " ++ callId ++ " not found", 404⟩⟩
  | some call =>
    if ¬ s.connected then ⟨s, some ⟨"ARI is not connected — Asterisk may be unreachable", 503⟩⟩
    else
      let previousState := call.state
      let s1 := { s with calls := cmUpdateState s.calls callId .speaking }
      match ttsSynthesize ttsUrl serverOutcome with
      | .error (.ariError e) => ⟨speakRestore s1 callId previousState, some e⟩
      | .error (.genericError m) =>
        ⟨speakRestore s1 callId previousState, some ⟨"Speak failed: " ++ m, 502⟩⟩
      | .ok _ => ⟨speakRestore s1 callId previousState, none⟩

/-- C7: with no TTS URL configured, `speak` on a live call fails — but with
the generic wrapped upstream error carrying HTTP status 502 (the unchecked
fetch of `undefined/v1/audio/speech` rejects and the catch block wraps it),
never with a 501 not-implemented error, for every outcome the TTS server
interaction could otherwise have had; afterwards the call record is not in
state `speaking` — it is back to the state held before the call (`answered`
if that state was itself `speaking`). -/
theorem speak_unconfigured_tts_fails_502 (s : Sys) (callId : String) (call : CallR)
    (outcome : Except JsError Unit)
    (hcall : lookupCall s.calls callId = some call)
    (hconn : s.connected = true) :
    (speak s none outcome callId).error =
      some ⟨"Speak failed: " ++ ttsNoUrlFetchError, 502⟩ ∧
    (∀ m, (speak s none outcome callId).error ≠ some ⟨m, 501⟩) ∧
    (lookupCall (speak s none outcome callId).state.calls callId).map CallR.state =
      some (if call.state = .speaking then .answered else call.state) ∧
    (lookupCall (speak s none outcome callId).state.calls callId).map CallR.state ≠
      some .speaking := by
  have hlook1 : lookupCall (cmUpdateState s.calls callId .speaking) callId =
      some { call with state := .speaking } := by
    unfold cmUpdateState
    rw [lookupCall_setCallState, hcall]
    rfl
  have herr : (speak s none outcome callId).error =
      some ⟨"Speak failed: " ++ ttsNoUrlFetchError, 502⟩ := by
    unfold speak ttsSynthesize
    rw [hcall]
    simp [hconn]
  have hstate : (speak s none outcome callId).state = { s with calls := cmUpdateState (cmUpdateState s.calls callId CState.speaking) callId (if call.state = CState.speaking then CState.answered else call.state) } := by
    unfold speak ttsSynthesize speakRestore
    rw [hcall]
    simp [hconn, hlook1]
  refine ⟨herr, ?_, ?_, ?_⟩
  · intro m
    rw [herr]
    simp
  · rw [hstate]
    simp only [cmUpdateState]
    rw [lookupCall_setCallState, lookupCall_setCallState, hcall]
    rfl
  · rw [hstate]
    simp only [cmUpdateState]
    rw [lookupCall_setCallState, lookupCall_setCallState, hcall]
    by_cases hsp : call.state = .speaking <;> simp [hsp]

/-- C7 witness: `speak` with no TTS URL evaluated on the concrete live call of
`c1Live`. -/
theorem speak_unconfigured_tts_fails_502_witness :
    (speak c1Live none (.ok ()) "c1").error =
      some ⟨"Speak failed: " ++ ttsNoUrlFetchError, 502⟩ ∧
    (∀ m, (speak c1Live none (.ok ()) "c1").error ≠ some ⟨m, 501⟩) ∧
    (lookupCall (speak c1Live none (.ok ()) "c1").state.calls "c1").map CallR.state =
      some (if CState.ready = CState.speaking then .answered else .ready) ∧
    (lookupCall (speak c1Live none (.ok ()) "c1").state.calls "c1").map CallR.state ≠
      some .speaking := by
  have h := speak_unconfigured_tts_fails_502 c1Live "c1"
    ⟨"ch1", .ready, .inbound, "5551234", "100", none⟩ (.ok ()) (by decide) (by decide)
  exact h

/-! ## Hangup failure characterization (`ari-connection.ts` lines 786–797) -/

/-- C8 counterexample: a state holding the live call `c1` while ARI is
disconnected; `hangup` fails with 503 even though the call exists, so "fails
if and only if no call with that ID exists" is false. -/
theorem hangup_fails_with_call_present :
    (lookupCall { c1Live with connected := false }.calls "c1").isSome = true ∧
    hangup { c1Live with connected := false } "c1" none false =
      .error ⟨"ARI is not connected — Asterisk may be unreachable", 503⟩ := by
  refine ⟨by decide, by decide⟩

/-- C8 (amended): `hangup` fails iff the call does not exist (404) or the ARI
connection is down (503).  When it succeeds, the outcome is independent of
whether the switch-side channel hangup failed (that error is swallowed), and
the record is marked `ended` with the given reason (default `"normal"`). -/
theorem hangup_failure_characterization (s : Sys) (callId : String)
    (reason : Option String) (sw : Bool) :
    (lookupCall s.calls callId = none →
      hangup s callId reason sw = .error ⟨"Call " ++ callId ++ " not found", 404⟩) ∧
    ((lookupCall s.calls callId).isSome → s.connected = false →
      hangup s callId reason sw =
        .error ⟨"ARI is not connected — Asterisk may be unreachable", 503⟩) ∧
    ((lookupCall s.calls callId).isSome → s.connected = true →
      hangup s callId reason sw =
        .ok { s with calls := cmEnd s.calls callId (reason.getD "normal") } ∧
      (lookupCall (cmEnd s.calls callId (reason.getD "normal")) callId).map
          (fun c => (c.state, c.hangupCause)) =
        (lookupCall s.calls callId).map
          (fun _ => (CState.ended, some (reason.getD "normal")))) ∧
    hangup s callId reason true = hangup s callId reason false := by
  refine ⟨?_, ?_, ?_, ?_⟩
  · intro hnone
    unfold hangup
    rw [hnone]
  · intro hsome hconn
    unfold hangup
    cases hl : lookupCall s.calls callId with
    | none => rw [hl] at hsome; exact absurd hsome (by simp)
    | some c0 => simp [hconn]
  · intro hsome hconn
    refine ⟨?_, ?_⟩
    · unfold hangup
      cases hl : lookupCall s.calls callId with
      | none => rw [hl] at hsome; exact absurd hsome (by simp)
      | some c0 => simp [hconn]
    · simp only [cmEnd]
      rw [lookupCall_setCallState]
      cases lookupCall s.calls callId <;> rfl
  · unfold hangup
    cases lookupCall s.calls callId <;> rfl

/-- C8 amended-claim witness: the characterization applied at concrete states:
a missing call, the disconnected state, and a successful hangup with an
explicit reason. -/
theorem hangup_failure_characterization_witness :
    hangup c1Live "nope" none false = .error ⟨"Call " ++ "nope" ++ " not found", 404⟩ ∧
    hangup { c1Live with connected := false } "c1" none false =
      .error ⟨"ARI is not connected — Asterisk may be unreachable", 503⟩ ∧
    hangup c1Live "c1" (some "busy") true =
      .ok { c1Live with calls := cmEnd c1Live.calls "c1" ((some "busy").getD "normal") } ∧
    hangup c1Live "c1" (some "busy") true = hangup c1Live "c1" (some "busy") false := by
  refine ⟨?_, ?_, ?_, ?_⟩
  · exact (hangup_failure_characterization c1Live "nope" none false).1 (by decide)
  · exact (hangup_failure_characterization { c1Live with connected := false } "c1" none
      false).2.1 (by decide) (by decide)
  · exact ((hangup_failure_characterization c1Live "c1" (some "busy") true).2.2.1
      (by decide) (by decide)).1
  · exact (hangup_failure_characterization c1Live "c1" (some "busy") false).2.2.2

/-! ## ASR client close sequence (`AsrClient.close` / `flushAndWait` in
`asr-client.ts`) -/

/-- A socket-level event observed by the `flushAndWait` listeners: a parsed
JSON message (with its optional `text` and its `is_final` flag), a message
whose `JSON.parse` failed (ignored during shutdown), or the socket `close`
event. -/
inductive AsrEvent
  | message (text : Option String) (isFinal : Bool)
  | badJson
  | socketClosed
deriving DecidableEq, Repr

/-- Externally visible actions of `AsrClient.close()`. -/
inductive CloseAct
  | sendFlush
  | emitTranscription (text : String)
  | closeSocket
deriving DecidableEq, Repr

/-- The 2000 ms safety deadline of `flushAndWait`. -/
def flushDeadlineMs : Nat := 2000

/-- The `flushAndWait` wait loop (`asr-client.ts` lines 1344–1401) over the
trace of events, each stamped with the milliseconds elapsed since the flush
was sent: the safety timer fires at `flushDeadlineMs`, so an event at or past
the deadline is never processed; a message with `is_final = true` emits the
transcription (when its `text` is present) and resolves; the socket closing
resolves; status messages, non-final messages and unparsable data are ignored.
The promise only ever resolves — there is no rejection path. -/
def flushWaitEmits : List (Nat × AsrEvent) → List CloseAct
  | [] => []
  | (t, e) :: rest =>
    if flushDeadlineMs ≤ t then []
    else
      match e with
      | .message (some s) true => [.emitTranscription s]
      | .message none true => []
      | .message _ false => flushWaitEmits rest
      | .badJson => flushWaitEmits rest
      | .socketClosed => []

/-- Function `AsrClient.close()` (`asr-client.ts` lines 1314–1338): with the
socket open it runs `flushAndWait` — which registers its listeners and then
sends the `flush` action — and closes the socket afterwards; with the socket
already gone it only clears state. -/
def asrClose (wsOpen : Bool) (trace : List (Nat × AsrEvent)) : List CloseAct :=
  if wsOpen then [.sendFlush] ++ flushWaitEmits trace ++ [.closeSocket]
  else []

/-- Whether an event settles the flush wait, as the spec words it: the 2 s
deadline elapsing, the socket closing first, or any response with
`is_final = true`. -/
def settlesWait (te : Nat × AsrEvent) : Bool :=
  decide (flushDeadlineMs ≤ te.1) ||
    (match te.2 with
     | .socketClosed => true
     | .message _ true => true
     | _ => false)

/-- The emissions of the close sequence as the spec words it (§4.2 "Close
sequence"): exactly the transcription of the first settling event, when that
event is a final response carrying a text and arrives before the deadline. -/
def specFinalEmits (trace : List (Nat × AsrEvent)) : List CloseAct :=
  match trace.find? settlesWait with
  | some (t, .message (some s) true) =>
    if t < flushDeadlineMs then [.emitTranscription s] else []
  | _ => []

theorem flushWaitEmits_eq_spec (trace : List (Nat × AsrEvent)) :
    flushWaitEmits trace = specFinalEmits trace := by
  induction trace with
  | nil => rfl
  | cons te rest ih =>
    obtain ⟨t, e⟩ := te
    by_cases ht : flushDeadlineMs ≤ t
    · have ht2 : ¬ t < flushDeadlineMs := by omega
      cases e with
      | message text isFinal =>
        cases text <;> cases isFinal <;>
          simp [flushWaitEmits, specFinalEmits, settlesWait, List.find?_cons, ht, ht2]
      | badJson =>
        simp [flushWaitEmits, specFinalEmits, settlesWait, List.find?_cons, ht, ht2]
      | socketClosed =>
        simp [flushWaitEmits, specFinalEmits, settlesWait, List.find?_cons, ht, ht2]
    · have ht2 : t < flushDeadlineMs := by omega
      cases e with
      | message text isFinal =>
        cases isFinal with
        | true =>
          cases text <;>
            simp [flushWaitEmits, specFinalEmits, settlesWait, List.find?_cons, ht, ht2]
        | false =>
          have hset : settlesWait (t, AsrEvent.message text false) = false := by
            simp [settlesWait, ht]
          calc flushWaitEmits ((t, AsrEvent.message text false) :: rest)
              = flushWaitEmits rest := by simp [flushWaitEmits, ht]
            _ = specFinalEmits rest := ih
            _ = specFinalEmits ((t, AsrEvent.message text false) :: rest) := by
                simp [specFinalEmits, List.find?_cons, hset]
      | badJson =>
        have hset : settlesWait (t, AsrEvent.badJson) = false := by
          simp [settlesWait, ht]
        calc flushWaitEmits ((t, AsrEvent.badJson) :: rest)
            = flushWaitEmits rest := by simp [flushWaitEmits, ht]
          _ = specFinalEmits rest := ih
          _ = specFinalEmits ((t, AsrEvent.badJson) :: rest) := by
              simp [specFinalEmits, List.find?_cons, hset]
      | socketClosed =>
        simp [flushWaitEmits, specFinalEmits, settlesWait, List.find?_cons, ht, ht2]

/-- C3: for every event trace, `close()` on an open socket performs exactly
`sendFlush`, then the emissions the spec's close sequence prescribes — the
transcription of the first `is_final = true` response when it arrives within
the 2 s deadline and before the socket closes — and closes the socket last;
it resolves (returns an action list, never an error) in every case, including
deadline expiry and early socket close; on an already-closed socket it does
nothing. -/
theorem asrClose_follows_spec_close_sequence (trace : List (Nat × AsrEvent)) :
    asrClose true trace =
      [CloseAct.sendFlush] ++ specFinalEmits trace ++ [CloseAct.closeSocket] ∧
    asrClose false trace = [] := by
  refine ⟨?_, rfl⟩
  unfold asrClose
  rw [flushWaitEmits_eq_spec]
  rfl

/-! ## Real-time playback scheduler (`AudioPlayback.streamAudio`) -/

/-- The 20 ms frame period (`chunkMs`). -/
def chunkMs : Nat := 20

/-- Bytes per 20 ms frame: `Math.floor((sampleRate * 2 / 1000) * chunkMs)`
for 16-bit mono PCM. -/
def chunkBytes (sampleRate : Nat) : Nat := sampleRate * 2 * chunkMs / 1000

/-- The wall-clock delay the drift-free `streamAudio` scheduler (the
v0.3.2 `audio-playback.ts`, `part_005` lines 224–227) computes before sending
frame `chunkIndex`: `targetTime = startTime + chunkIndex * chunkMs;
delay = Math.max(0, targetTime - Date.now())`. -/
def wallClockDelay (startTime chunkIndex now : Nat) : Int :=
  max 0 ((startTime : Int) + chunkIndex * chunkMs - now)

/-- Model of the `setInterval(sendChunk, chunkMs)` pacing still present in
`src/audio-playback.ts` (lines 184–187): Node's `setInterval` schedules each
tick relative to when the previous callback actually ran, so with per-tick
scheduler lateness `errs k` the fire time after `errs.length` ticks is
`startTime + chunkMs * errs.length + errs.sum` — the lateness accumulates
additively instead of being reabsorbed. Chunk 0 is sent immediately at
`startTime`. -/
def intervalFireTime (startTime : Nat) (errs : List Nat) : Nat :=
  startTime + chunkMs * errs.length + errs.sum

/-- C2: the wall-clock scheduler's delay equals the claimed formula
`max(0, startTime + frameIndex × 20 ms − now)` for every frame, but the
`setInterval` pacing of `src/audio-playback.ts` does not follow it: with just
1 ms of scheduler lateness per tick, frame 1500 of a 30 s stream fires at
31500 ms instead of its 30000 ms target — the claimed target-time property
fails for the interval-chained scheduler. -/
theorem streamAudio_interval_pacing_drifts :
    (∀ startTime chunkIndex now,
      wallClockDelay startTime chunkIndex now =
        max 0 ((startTime : Int) + chunkIndex * 20 - now)) ∧
    intervalFireTime 0 (List.replicate 1500 1) = 31500 ∧
    0 + 1500 * chunkMs = 30000 ∧
    intervalFireTime 0 (List.replicate 1500 1) ≠ 0 + 1500 * chunkMs := by
  have hlen : (List.replicate 1500 (1 : Nat)).length = 1500 := List.length_replicate _ _
  have hsum : (List.replicate 1500 (1 : Nat)).sum = 1500 := by
    rw [List.sum_replicate, smul_eq_mul, mul_one]
  have hfire : intervalFireTime 0 (List.replicate 1500 1) = 31500 := by
    unfold intervalFireTime chunkMs
    rw [hlen, hsum]
  refine ⟨fun _ _ _ => rfl, hfire, by decide, ?_⟩
  rw [hfire]
  decide

/-! ## ASR client connect / open handler (`AsrClient.connect` in
`asr-client.ts`) -/

/-- The client-side fields the `"open"` handler touches. -/
structure AsrClientSt where
  reconnectAttempts : Nat
  closed : Bool
deriving DecidableEq, Repr

/-- A frame sent on the ASR socket: a JSON text message or a binary PCM
frame. -/
inductive AsrSend
  | jsonText (s : String)
  | binaryPcm (byteLen : Nat)
deriving DecidableEq, Repr

/-- The `"open"` handler installed by `AsrClient.connect` (`asr-client.ts`,
`src/ari-connection.ts` concatenation lines 1181–1185): it logs, resets
`reconnectAttempts` to 0 and emits `"connected"`. It writes nothing to the
socket. -/
def asrOnOpen (st : AsrClientSt) : AsrClientSt × List AsrSend :=
  ({ st with reconnectAttempts := 0 }, [])

/-- The configuration message §4.2 of the spec requires immediately on open:
`"action": "config"` with the configured language. -/
def specAsrConfigMessage (language : String) : String :=
  "\x7b\"action\": \"config\", \"language\": \"" ++ language ++ "\"\x7d"

/-- C6: the ASR client's open handler sends no message at all on the socket —
in particular not the JSON configuration message locking the configured
language (default `"English"`, `config.ts`) that the spec (and CHANGELOG
v0.3.5) require before any binary audio frame. -/
theorem asrOnOpen_sends_no_config (st : AsrClientSt) :
    (asrOnOpen st).2 = [] ∧
    AsrSend.jsonText (specAsrConfigMessage "English") ∉ (asrOnOpen st).2 ∧
    (asrOnOpen st).1 = { st with reconnectAttempts := 0 } := by
  exact ⟨rfl, by simp [asrOnOpen], rfl⟩

end AsteriskApi
